import Mathlib

/-!
Verification of the concurrent file-backed record store and ranking engine
of `src/server.js` (MOLOCO CARDIO RACE server), as a shallow embedding.

Numbers handled by JavaScript `parseFloat` are modelled as rationals (`ℚ`);
timestamps are opaque strings; the on-disk JSON document is modelled by
`DataFile`; the lock marker file is a boolean; waiting is modelled by an
accumulated millisecond counter.
-/

/-- One leaderboard submission, mirroring the object literal built in
`app.post('/api/submit-record')` (server.js lines 215–225). -/
structure Record where
  id : Nat
  name : String
  gender : String
  bike : ℚ
  treadmill : ℚ
  rowing : ℚ
  totalDistance : ℚ
  photoPath : String
  submittedAt : String
deriving Repr, DecidableEq

/-- The in-memory snapshot returned by `readRecords` (server.js lines 62–76):
the record list plus the persisted id counter. -/
structure Store where
  records : List Record
  nextId : Nat
deriving Repr, DecidableEq

/-- The state of the backing JSON document `data/records.json`.
`absent` models a missing file, `malformed` a file whose contents
`JSON.parse` rejects (or an I/O failure while reading), and `doc` a parsed
object whose fields may each be missing.  A field that is present but
falsy (e.g. `null`) behaves like a missing field under the `||` defaults
of `readRecords`, so it is folded into `none`; a present `nextId` of `0`
is falsy in JavaScript and is modelled explicitly below. -/
inductive DataFile where
  | absent
  | malformed
  | doc (records : Option (List Record)) (nextId : Option Nat) (lastUpdated : Option String)
deriving Repr, DecidableEq

/-- Embedding of `readRecords` (server.js lines 62–76): if the file exists
and parses, return `parsed.records || []` and `parsed.nextId || 1`;
on a missing file, a read failure or a parse failure return the empty
store `{ records: [], nextId: 1 }`.  The JavaScript `try`/`catch` makes
the function total: this embedding returns a `Store` on every input and
never an error. -/
def readRecords : DataFile → Store
  | .absent => ⟨[], 1⟩
  | .malformed => ⟨[], 1⟩
  | .doc recs nid _ =>
      ⟨recs.getD [], match nid with
        | none => 1
        | some n => if n = 0 then 1 else n⟩

/-- Embedding of `FileLock.release` (server.js lines 49–58) as a function on
`(isLocked, markerPresent)` pairs.  If `isLocked` is set, `unlinkSync` is
attempted: when the marker exists it is removed and `isLocked` cleared;
when it does not exist `unlinkSync` throws `ENOENT`, the `catch` swallows
the error and `isLocked` is left set.  If `isLocked` is clear the body is
skipped entirely and the marker, if present, stays. -/
def FileLock.release : Bool × Bool → Bool × Bool
  | (true, true) => (false, false)
  | (true, false) => (true, false)
  | (false, m) => (false, m)

/-- Embedding of the retry loop of `FileLock.acquire` (server.js lines
27–47).  `occupied i` tells whether the lock file exists when attempt `i`
performs its `writeFileSync(..., { flag: 'wx' })` (create only if absent);
`i` is the loop index, `fuel` the remaining iterations of the 50-iteration
`for` loop, and `waited` the milliseconds slept so far (100 ms after each
`EEXIST`).  Returns `(some i, waited)` when attempt `i` creates the
marker, and `(none, waited)` when the loop ends and the function throws
`Error('Failed to acquire file lock')`. -/
def acquireAux (occupied : Nat → Bool) : Nat → Nat → Nat → Option Nat × Nat
  | _, 0, waited => (none, waited)
  | i, fuel + 1, waited =>
      if occupied i then acquireAux occupied (i + 1) fuel (waited + 100)
      else (some i, waited)

/-- Embedding of `FileLock.acquire` (server.js lines 27–47): 50 attempts,
100 ms between retries. -/
def FileLock.acquire (occupied : Nat → Bool) : Option Nat × Nat :=
  acquireAux occupied 0 50 0

/-- Errors that `writeRecords` can surface to its caller. -/
inductive WriteError where
  | lockTimeout
  | ioFailure
deriving Repr, DecidableEq

/-- The observable outcome of a `writeRecords` call: the data file after the
call, whether a lock marker created by this call is still present, and the
error surfaced to the caller, if any. -/
structure WriteResult where
  dataFile : DataFile
  markerHeld : Bool
  error : Option WriteError
deriving Repr, DecidableEq

/-- Embedding of `writeRecords` (server.js lines 79–100).  A fresh
`FileLock` is created (`isLocked = false`, no marker of ours).  `acquire`
either creates the marker (`isLocked = true`) or throws after its retry
budget; in the latter case the `catch` rethrows and the `finally` runs
`release` on the never-locked object, a no-op, leaving the data file
untouched.  After a successful acquire, `writeFileSync` replaces the
document wholesale with `{ records, nextId, lastUpdated }` when `writeOk`,
or throws when not (`writeOk = false`), in which case the error is
rethrown; either way the `finally` clause runs `release` on the locked
object.  A failed `writeFileSync` is modelled as leaving the previous
document intact (overwrite happens only on full successful
serialization). -/
def writeRecords (occupied : Nat → Bool) (writeOk : Bool) (now : String)
    (records : List Record) (nextId : Nat) (df : DataFile) : WriteResult :=
  match (FileLock.acquire occupied).1 with
  | none =>
      { dataFile := df
        markerHeld := (FileLock.release (false, false)).2
        error := some .lockTimeout }
  | some _ =>
      if writeOk then
        { dataFile := .doc (some records) (some nextId) (some now)
          markerHeld := (FileLock.release (true, true)).2
          error := none }
      else
        { dataFile := df
          markerHeld := (FileLock.release (true, true)).2
          error := some .ioFailure }

/-- The validated submission fields consumed by the record-creation part of
`app.post('/api/submit-record')`, after `parseFloat` conversion. -/
structure AppendInput where
  name : String
  gender : String
  bike : ℚ
  treadmill : ℚ
  rowing : ℚ
  photoPath : String
deriving Repr, DecidableEq

/-- The record object built at server.js lines 215–225: `id` is the
snapshot's `nextId`, `totalDistance` is the sum of the three parsed
measurements, `submittedAt` is the current timestamp. -/
def mkRecord (inp : AppendInput) (id : Nat) (now : String) : Record :=
  { id := id
    name := inp.name
    gender := inp.gender
    bike := inp.bike
    treadmill := inp.treadmill
    rowing := inp.rowing
    totalDistance := inp.bike + inp.treadmill + inp.rowing
    photoPath := inp.photoPath
    submittedAt := now }

/-- The read–create–push–write sequence of `app.post('/api/submit-record')`
(server.js lines 212–231) run in isolation: read the snapshot, build the
record with `id = nextId`, append it, and persist `(records, nextId + 1)`
with no lock contention and a successful file write. -/
def appendStep (inp : AppendInput) (now : String) (df : DataFile) : DataFile :=
  let s := readRecords df
  let record := mkRecord inp s.nextId now
  (writeRecords (fun _ => false) true now (s.records ++ [record]) (s.nextId + 1) df).dataFile

/-- N sequential submissions, one `appendStep` after another. -/
def appendSeq (inps : List AppendInput) (now : String) (df : DataFile) : DataFile :=
  inps.foldl (fun d inp => appendStep inp now d) df

/-- State of two in-flight `/api/submit-record` handlers sharing the data
file: the document plus the snapshot each handler's `readRecords` call has
captured (none before the handler has read). -/
structure ConcState where
  df : DataFile
  snap1 : Option Store
  snap2 : Option Store
deriving Repr, DecidableEq

/-- Interleaving events for two concurrent submissions.  The handler reads
the snapshot outside any lock (server.js line 212) and only the final
`writeRecords` takes the lock, so a schedule may order the two reads
before either write; each write then holds the lock only for its own
duration. -/
inductive ConcEv where
  | read1
  | read2
  | write1
  | write2
deriving Repr, DecidableEq

/-- One step of the interleaved execution: a read event captures
`readRecords` of the current document into the handler's snapshot; a write
event (enabled once that handler has its snapshot) builds the record from
the captured snapshot exactly as lines 215–231 do and persists
`(snapshot.records ++ [record], snapshot.nextId + 1)`. -/
def concStep (inp1 inp2 : AppendInput) (now : String) (s : ConcState) : ConcEv → ConcState
  | .read1 => { s with snap1 := some (readRecords s.df) }
  | .read2 => { s with snap2 := some (readRecords s.df) }
  | .write1 =>
      match s.snap1 with
      | none => s
      | some snap =>
          let record := mkRecord inp1 snap.nextId now
          { s with df := (writeRecords (fun _ => false) true now
              (snap.records ++ [record]) (snap.nextId + 1) s.df).dataFile }
  | .write2 =>
      match s.snap2 with
      | none => s
      | some snap =>
          let record := mkRecord inp2 snap.nextId now
          { s with df := (writeRecords (fun _ => false) true now
              (snap.records ++ [record]) (snap.nextId + 1) s.df).dataFile }

/-- Run a schedule of interleaving events for two concurrent submissions. -/
def runConc (inp1 inp2 : AppendInput) (now : String) (sched : List ConcEv)
    (df : DataFile) : ConcState :=
  sched.foldl (concStep inp1 inp2 now) { df := df, snap1 := none, snap2 := none }

/-- Descending-by-total comparison: `rTot a b` holds when `a`'s total is at
least `b`'s, mirroring the comparator `(a, b) => b.totalDistance -
a.totalDistance` handed to the (stable) `Array.prototype.sort`. -/
def rTot (a b : Record) : Prop := b.totalDistance ≤ a.totalDistance

instance : DecidableRel rTot :=
  fun a b => (inferInstance : Decidable (b.totalDistance ≤ a.totalDistance))

instance : IsTotal Record rTot := ⟨fun a b => le_total b.totalDistance a.totalDistance⟩

instance : IsTrans Record rTot := ⟨fun _ _ _ hab hbc => le_trans hbc hab⟩

/-- Embedding of `records.sort((a, b) => b.totalDistance - a.totalDistance)`
(server.js lines 271–272): ECMAScript 2019 guarantees `Array.prototype.sort`
is stable, and a stable descending sort is exactly insertion sort under
`rTot`. -/
def sortByTotalDesc (l : List Record) : List Record :=
  List.insertionSort rTot l

/-- Embedding of `records.filter(record => record.gender === g)`
(server.js lines 267–268). -/
def filterGender (records : List Record) (g : String) : List Record :=
  records.filter (fun r => r.gender == g)

/-- One entry of the public (blurred) ranking produced at server.js lines
275–296: measurements replaced by the placeholder string. -/
structure MaskedEntry where
  rank : Nat
  name : String
  gender : String
  bike : String
  treadmill : String
  rowing : String
  totalDistance : String
  submittedAt : String
deriving Repr, DecidableEq

/-- The date portion of an ISO timestamp, `submittedAt.split('T')[0]`:
the prefix of the string before its first `'T'`. -/
def datePortion (s : String) : String :=
  ⟨s.data.takeWhile (fun c => !(c == 'T'))⟩

/-- The map body of server.js lines 275–284: rank is the 1-based position,
name/gender are kept, the three measurements and the total are masked with
`'***'`, and only the date part of the timestamp is shown. -/
def maskEntry (rank : Nat) (r : Record) : MaskedEntry :=
  { rank := rank
    name := r.name
    gender := r.gender
    bike := "***"
    treadmill := "***"
    rowing := "***"
    totalDistance := "***"
    submittedAt := datePortion r.submittedAt }

/-- The ranking list served for one gender by `GET /api/rankings`:
filter by gender, stable-sort descending by total, mask each entry with its
1-based rank. -/
def genderRankings (records : List Record) (g : String) : List MaskedEntry :=
  (sortByTotalDesc (filterGender records g)).enum.map (fun p => maskEntry (p.1 + 1) p.2)

/-- The unredacted first-place payload of server.js lines 299–317. -/
structure FirstPlace where
  name : String
  gender : String
  bike : ℚ
  treadmill : ℚ
  rowing : ℚ
  totalDistance : ℚ
  submittedAt : String
deriving Repr, DecidableEq

/-- Expose a record's real measurements (server.js lines 299–307). -/
def exposeEntry (r : Record) : FirstPlace :=
  { name := r.name
    gender := r.gender
    bike := r.bike
    treadmill := r.treadmill
    rowing := r.rowing
    totalDistance := r.totalDistance
    submittedAt := datePortion r.submittedAt }

/-- The first-place view for one gender: the top entry of the sorted
partition with its real measurements, or `none` (JavaScript `null`) when
the partition is empty. -/
def firstPlace (records : List Record) (g : String) : Option FirstPlace :=
  match sortByTotalDesc (filterGender records g) with
  | [] => none
  | r :: _ => some (exposeEntry r)

/-- JavaScript values as they can appear in `req.body` fields: missing
(`undefined`), `null`, booleans, numbers (as rationals) and strings. -/
inductive JSValue where
  | undef
  | nullV
  | boolean (b : Bool)
  | num (n : ℚ)
  | str (s : String)
deriving Repr, DecidableEq

/-- JavaScript truthiness, as tested by `!name || !gender || ...` at
server.js line 196: `undefined`, `null`, `false`, the number `0` and the
empty string are falsy; everything else modelled here is truthy. -/
def truthy : JSValue → Bool
  | .undef => false
  | .nullV => false
  | .boolean b => b
  | .num n => !(n == 0)
  | .str s => !(s == "")

/-- Decimal-digit parser used to model `parseFloat` on strings: consumes
the characters left to right, accumulating the value, and fails on the
first non-digit. -/
def parseDigitsAux : List Char → Nat → Option Nat
  | [], acc => some acc
  | c :: cs, acc =>
      if c.isDigit then parseDigitsAux cs (acc * 10 + (c.toNat - 48)) else none

/-- Parse a non-empty all-digit string to its numeric value. -/
def parseDigits : List Char → Option Nat
  | [] => none
  | cs => parseDigitsAux cs 0

/-- JavaScript `parseFloat` on a body field.  Numbers pass through;
digit strings (the form in which multipart form fields such as `'0'`
arrive) are parsed to their value; other inputs (whose exact `NaN`,
sign or fractional float semantics no claim depends on) are modelled
as 0. -/
def jsParseFloat : JSValue → ℚ
  | .num n => n
  | .str s => match parseDigits s.data with
      | some n => (n : ℚ)
      | none => 0
  | _ => 0

/-- The string under which a body value is stored in the record's
`name`/`gender` field (the interesting case is `str`; other truthy values
are rendered for concreteness). -/
def jsToStr : JSValue → String
  | .str s => s
  | .num n => toString n
  | .boolean b => toString b
  | .nullV => "null"
  | .undef => "undefined"

/-- The inputs of one `POST /api/submit-record` request: the five body
fields exactly as delivered by the body parser, plus `req.file` (the
multer upload, `none` when no photo was sent). -/
structure SubmitRequest where
  name : JSValue
  gender : JSValue
  bike : JSValue
  treadmill : JSValue
  rowing : JSValue
  file : Option String
deriving Repr, DecidableEq

/-- Responses of the submit handler: the 400 missing-fields rejection
(line 196), the 400 missing-photo rejection (line 204), or the success
payload with rank, participant counts and the localized gender label. -/
inductive SubmitOutcome where
  | missingFields
  | missingPhoto
  | ok (rank : Nat) (totalParticipants : Nat) (genderParticipants : Nat) (genderLabel : String)
deriving Repr, DecidableEq

/-- Embedding of the whole `app.post('/api/submit-record')` handler
(server.js lines 191–258), with no lock contention and a successful file
write: truthiness validation of the five fields, photo check, snapshot
read, record creation, persist, per-gender rank for the response, and the
label `gender === 'male' ? '남성' : '여성'`.  Returns the response and the
data file after the call. -/
def submitRecord (req : SubmitRequest) (now : String) (df : DataFile) :
    SubmitOutcome × DataFile :=
  if !truthy req.name || !truthy req.gender || !truthy req.bike
      || !truthy req.treadmill || !truthy req.rowing then
    (.missingFields, df)
  else
    match req.file with
    | none => (.missingPhoto, df)
    | some photoPath =>
        let s := readRecords df
        let record := mkRecord
          ⟨jsToStr req.name, jsToStr req.gender, jsParseFloat req.bike,
           jsParseFloat req.treadmill, jsParseFloat req.rowing, photoPath⟩
          s.nextId now
        let newRecords := s.records ++ [record]
        let df2 := (writeRecords (fun _ => false) true now newRecords (s.nextId + 1) df).dataFile
        let sameGender := newRecords.filter (fun r => r.gender == record.gender)
        let sorted := sortByTotalDesc sameGender
        let currentRank := sorted.findIdx (fun r => r.id == record.id) + 1
        (.ok currentRank newRecords.length sameGender.length
          (if req.gender == .str "male" then "남성" else "여성"), df2)

/-- Whether a submit response is the success payload (HTTP 200 branch). -/
def SubmitOutcome.isOk : SubmitOutcome → Bool
  | .ok _ _ _ _ => true
  | _ => false

/-- The localized gender label carried by a success response, if any. -/
def SubmitOutcome.label : SubmitOutcome → Option String
  | .ok _ _ _ lbl => some lbl
  | _ => none

/-- Concrete record used in examples: A, male, total 10 (spec §8). -/
def exA : Record :=
  { id := 1, name := "A", gender := "male", bike := 4, treadmill := 3, rowing := 3,
    totalDistance := 10, photoPath := "pa", submittedAt := "2024-01-01T09:00:00Z" }

/-- Concrete record used in examples: B, male, total 30 (spec §8). -/
def exB : Record :=
  { id := 2, name := "B", gender := "male", bike := 12, treadmill := 10, rowing := 8,
    totalDistance := 30, photoPath := "pb", submittedAt := "2024-01-02T09:00:00Z" }

/-- Concrete record used in examples: C, female, total 20 (spec §8). -/
def exC : Record :=
  { id := 3, name := "C", gender := "female", bike := 8, treadmill := 6, rowing := 6,
    totalDistance := 20, photoPath := "pc", submittedAt := "2024-01-03T09:00:00Z" }

/-- The three-record store of the spec's ranking-correctness example. -/
def exRecords : List Record := [exA, exB, exC]

section Lemmas

lemma acquireAux_timeout (occupied : Nat → Bool) :
    ∀ (fuel i waited : Nat), (∀ j, j < fuel → occupied (i + j) = true) →
      acquireAux occupied i fuel waited = (none, waited + 100 * fuel) := by
  intro fuel
  induction fuel with
  | zero => intro i waited _; simp [acquireAux]
  | succ f ih =>
      intro i waited h
      have h0 : occupied i = true := by simpa using h 0 (Nat.succ_pos f)
      rw [acquireAux, h0]
      simp only [if_true]
      have := ih (i + 1) (waited + 100) (fun j hj => by
        have := h (j + 1) (Nat.succ_lt_succ hj)
        simpa [Nat.add_assoc, Nat.add_comm 1 j] using this)
      rw [this]
      congr 1
      ring

lemma acquireAux_success (occupied : Nat → Bool) :
    ∀ (fuel k i waited : Nat), k < fuel →
      (∀ j, j < k → occupied (i + j) = true) → occupied (i + k) = false →
      acquireAux occupied i fuel waited = (some (i + k), waited + 100 * k) := by
  intro fuel
  induction fuel with
  | zero => intro k i waited hk; exact absurd hk (Nat.not_lt_zero k)
  | succ f ih =>
      intro k i waited hk hbefore hfree
      cases k with
      | zero =>
          have h0 : occupied i = false := by simpa using hfree
          rw [acquireAux, h0]
          simp
      | succ k' =>
          have h0 : occupied i = true := by simpa using hbefore 0 (Nat.succ_pos k')
          rw [acquireAux, h0]
          simp only [if_true]
          have := ih k' (i + 1) (waited + 100) (Nat.lt_of_succ_lt_succ hk)
            (fun j hj => by
              have := hbefore (j + 1) (Nat.succ_lt_succ hj)
              simpa [Nat.add_assoc, Nat.add_comm 1 j] using this)
            (by
              have : i + 1 + k' = i + (k' + 1) := by omega
              rw [this]; exact hfree)
          rw [this]
          have h1 : i + 1 + k' = i + (k' + 1) := by omega
          have h2 : waited + 100 + 100 * k' = waited + 100 * (k' + 1) := by ring
          rw [h1, h2]

end Lemmas

/-- C2: for every valid store `s` (any record list, `nextId ≥ 1`), reading
back immediately after an (uncontended, successful) `writeRecords` of `s`
reproduces `s`'s records and `s`'s `nextId` exactly; `lastUpdated` is
refreshed to the write's timestamp and not read back. -/
theorem write_then_read_roundtrip (s : Store) (now : String) (df : DataFile)
    (h : 1 ≤ s.nextId) :
    readRecords ((writeRecords (fun _ => false) true now s.records s.nextId df).dataFile) = s := by
  obtain ⟨recs, nid⟩ := s
  have hne : nid ≠ 0 := by simpa using Nat.pos_iff_ne_zero.mp h
  simp [writeRecords, FileLock.acquire, acquireAux, readRecords, hne]

/-- Witness for C2 at a concrete store with one record and `nextId = 5`. -/
theorem write_then_read_roundtrip_witness :
    1 ≤ (Store.mk [exB] 5).nextId ∧
      readRecords ((writeRecords (fun _ => false) true "2024-02-01T00:00:00Z" [exB] 5
        DataFile.absent).dataFile) = Store.mk [exB] 5 :=
  ⟨by decide, write_then_read_roundtrip (Store.mk [exB] 5) "2024-02-01T00:00:00Z"
    DataFile.absent (by decide)⟩

/-- C3: `FileLock.acquire` uses create-only-if-absent semantics; each
creation conflict costs a fixed 100 ms wait before the retry, so a success
at attempt `k` (the first attempt at which the marker is absent) has
waited `100·k` ms; after 50 unsuccessful attempts it fails with the
lock-timeout error having waited the full 5000 ms, and a `writeRecords`
call whose acquire times out performs no write: the data file is
unchanged, no marker of this call remains, and the error is surfaced. -/
theorem acquire_retry_budget (occupied : Nat → Bool) :
    ((∀ i, i < 50 → occupied i = true) →
      FileLock.acquire occupied = (none, 5000)
      ∧ ∀ (writeOk : Bool) (now : String) (records : List Record) (nextId : Nat) (df : DataFile),
          writeRecords occupied writeOk now records nextId df
            = ⟨df, false, some WriteError.lockTimeout⟩)
    ∧ (∀ k, k < 50 → (∀ j, j < k → occupied j = true) → occupied k = false →
        FileLock.acquire occupied = (some k, 100 * k)) := by
  constructor
  · intro h
    have hacq : FileLock.acquire occupied = (none, 5000) := by
      have := acquireAux_timeout occupied 50 0 0 (fun j hj => by simpa using h j hj)
      simpa [FileLock.acquire] using this
    refine ⟨hacq, fun writeOk now records nextId df => ?_⟩
    have h1 : (FileLock.acquire occupied).1 = none := by rw [hacq]
    simp [writeRecords, h1, FileLock.release]
  · intro k hk hbefore hfree
    have := acquireAux_success occupied 50 k 0 0 hk
      (fun j hj => by simpa using hbefore j hj) (by simpa using hfree)
    simpa [FileLock.acquire] using this

/-- Witness for C3: with the marker permanently held, acquire times out at
5000 ms and a write attempt leaves the store untouched; with the marker
held for exactly two attempts, acquire succeeds at attempt 2 having
waited 200 ms. -/
theorem acquire_retry_budget_witness :
    (FileLock.acquire (fun _ => true) = (none, 5000)
      ∧ writeRecords (fun _ => true) true "t" [exA] 7 DataFile.absent
          = ⟨DataFile.absent, false, some WriteError.lockTimeout⟩)
    ∧ FileLock.acquire (fun j => j < 2) = (some 2, 200) := by
  refine ⟨⟨?_, ?_⟩, ?_⟩
  · exact ((acquire_retry_budget (fun _ => true)).1 (by decide)).1
  · exact ((acquire_retry_budget (fun _ => true)).1 (by decide)).2 true "t" [exA] 7 DataFile.absent
  · exact (acquire_retry_budget (fun j => j < 2)).2 2 (by decide) (by decide) (by decide)

/-- C4 counterexample: `release()` is not unconditional.  Called on a lock
object that does not hold the lock (`isLocked = false`) while the marker
file exists (created by another holder), the body is skipped and the
marker remains present. -/
theorem release_not_unconditional : (FileLock.release (false, true)).2 = true := rfl

/-- C4 (amended): `release()` removes the marker exactly when the lock
object holds it.  For any prior marker state, if `isLocked` is set the
marker is absent after the call; if `isLocked` is clear the call is a
no-op and the marker keeps its prior state. -/
theorem release_removes_marker_when_locked (m : Bool) :
    (FileLock.release (true, m)).2 = false ∧ (FileLock.release (false, m)) = (false, m) := by
  cases m <;> exact ⟨rfl, rfl⟩

/-- C5: `readRecords` never signals an error — it is a total function into
`Store`.  An absent document, an unreadable or malformed document, and a
parsed document with both fields missing all yield the empty store
(`records = []`, `nextId = 1`); a partially-formed document defaults each
missing field individually (`records || []`, `nextId || 1`, where a falsy
stored `nextId = 0` also defaults to 1). -/
theorem readRecords_fallback :
    readRecords DataFile.absent = ⟨[], 1⟩
    ∧ readRecords DataFile.malformed = ⟨[], 1⟩
    ∧ (∀ lu, readRecords (DataFile.doc none none lu) = ⟨[], 1⟩)
    ∧ (∀ rs lu, readRecords (DataFile.doc (some rs) none lu) = ⟨rs, 1⟩)
    ∧ (∀ n lu, readRecords (DataFile.doc none (some n) lu)
        = ⟨[], if n = 0 then 1 else n⟩)
    ∧ (∀ rs n lu, readRecords (DataFile.doc (some rs) (some n) lu)
        = ⟨rs, if n = 0 then 1 else n⟩) :=
  ⟨rfl, rfl, fun _ => rfl, fun _ _ => rfl, fun _ _ => rfl, fun _ _ _ => rfl⟩

/-- C6: `writeRecords` acquires the lock, replaces the document wholesale
with the full snapshot (records, `nextId`, refreshed `lastUpdated`), and
no marker created by the call survives it on any exit path.  When the
file write fails, the `ioFailure` error is surfaced to the caller, the
marker is absent afterward, and the prior document is untouched; when the
lock times out, the error is surfaced and the document is untouched. -/
theorem writeRecords_replace_and_release (occupied : Nat → Bool) (writeOk : Bool)
    (now : String) (records : List Record) (nextId : Nat) (df : DataFile) :
    (writeRecords occupied writeOk now records nextId df).markerHeld = false
    ∧ ((FileLock.acquire occupied).1 ≠ none → writeOk = true →
        writeRecords occupied writeOk now records nextId df
          = ⟨DataFile.doc (some records) (some nextId) (some now), false, none⟩)
    ∧ ((FileLock.acquire occupied).1 ≠ none → writeOk = false →
        writeRecords occupied writeOk now records nextId df
          = ⟨df, false, some WriteError.ioFailure⟩)
    ∧ ((FileLock.acquire occupied).1 = none →
        writeRecords occupied writeOk now records nextId df
          = ⟨df, false, some WriteError.lockTimeout⟩) := by
  cases hacq : (FileLock.acquire occupied).1 <;> cases writeOk <;>
    simp [writeRecords, hacq, FileLock.release]

/-- Witness for C6: an uncontended successful write replaces the document
and leaves no marker; an uncontended failing write surfaces the error and
leaves the prior document; a contended write times out. -/
theorem writeRecords_replace_and_release_witness :
    writeRecords (fun _ => false) true "t" [exA] 7 DataFile.absent
        = ⟨DataFile.doc (some [exA]) (some 7) (some "t"), false, none⟩
    ∧ writeRecords (fun _ => false) false "t" [exA] 7 (DataFile.doc (some [exB]) (some 3) (some "u"))
        = ⟨DataFile.doc (some [exB]) (some 3) (some "u"), false, some WriteError.ioFailure⟩
    ∧ writeRecords (fun _ => true) true "t" [exA] 7 DataFile.absent
        = ⟨DataFile.absent, false, some WriteError.lockTimeout⟩ := by
  refine ⟨?_, ?_, ?_⟩
  · exact (writeRecords_replace_and_release (fun _ => false) true "t" [exA] 7
      DataFile.absent).2.1 (by decide) rfl
  · exact (writeRecords_replace_and_release (fun _ => false) false "t" [exA] 7
      (DataFile.doc (some [exB]) (some 3) (some "u"))).2.2.1 (by decide) rfl
  · exact (writeRecords_replace_and_release (fun _ => true) true "t" [exA] 7
      DataFile.absent).2.2.2 (by decide)

/-- C1: the read–modify–write span of a submission is NOT indivisible.
`readRecords` runs outside the lock (server.js line 212) and only the
final `writeRecords` is serialized, so the schedule in which both
handlers read the empty store before either writes is reachable.  Under
it, M = 2 concurrent appends against an initially empty store end with a
single record: both handlers assigned id 1 from the same snapshot and the
second persist overwrote the first handler's record ("B" survives, "A" is
lost), contradicting "exactly M records with M distinct, contiguous
ids". -/
theorem concurrent_append_loses_update :
    (readRecords (runConc ⟨"A", "male", 1, 1, 1, "p1"⟩ ⟨"B", "male", 2, 2, 2, "p2"⟩ "t"
        [ConcEv.read1, ConcEv.read2, ConcEv.write1, ConcEv.write2] DataFile.absent).df).records.map
      (fun r => (r.id, r.name)) = [(1, "B")]
    ∧ (readRecords (runConc ⟨"A", "male", 1, 1, 1, "p1"⟩ ⟨"B", "male", 2, 2, 2, "p2"⟩ "t"
        [ConcEv.read1, ConcEv.read2, ConcEv.write1, ConcEv.write2] DataFile.absent).df).records.length
      = 1 := by
  constructor <;> rfl

lemma readRecords_appendStep (inp : AppendInput) (now : String) (df : DataFile) :
    readRecords (appendStep inp now df)
      = ⟨(readRecords df).records ++ [mkRecord inp (readRecords df).nextId now],
         (readRecords df).nextId + 1⟩ := by
  have h : (readRecords df).nextId + 1 ≠ 0 := Nat.succ_ne_zero _
  simp [appendStep, writeRecords, FileLock.acquire, acquireAux, readRecords, h]

lemma appendSeq_ids (inps : List AppendInput) (now : String) :
    ∀ (df : DataFile) (k : Nat),
      (readRecords df).records.map (fun r => r.id) = List.range' 1 k →
      (readRecords df).nextId = k + 1 →
      (readRecords (appendSeq inps now df)).records.map (fun r => r.id)
          = List.range' 1 (k + inps.length)
      ∧ (readRecords (appendSeq inps now df)).nextId = (k + inps.length) + 1 := by
  induction inps with
  | nil => intro df k h1 h2; simpa [appendSeq] using ⟨h1, h2⟩
  | cons inp rest ih =>
      intro df k h1 h2
      have hstep : readRecords (appendStep inp now df)
          = ⟨(readRecords df).records ++ [mkRecord inp (readRecords df).nextId now],
             (readRecords df).nextId + 1⟩ := readRecords_appendStep inp now df
      have h1' : (readRecords (appendStep inp now df)).records.map (fun r => r.id)
          = List.range' 1 (k + 1) := by
        rw [hstep]
        simp only [List.map_append, h1, h2, List.map_cons, List.map_nil, mkRecord]
        rw [List.range'_concat]
        simp [Nat.add_comm 1 k]
      have h2' : (readRecords (appendStep inp now df)).nextId = (k + 1) + 1 := by
        rw [hstep, h2]
      have hseq : appendSeq (inp :: rest) now df = appendSeq rest now (appendStep inp now df) := by
        simp [appendSeq]
      rw [hseq]
      have := ih (appendStep inp now df) (k + 1) h1' h2'
      constructor
      · rw [this.1]; congr 1; simp [List.length_cons]; omega
      · rw [this.2]; simp [List.length_cons]; omega

/-- C7: for N sequential `append` calls starting from an empty store, the
assigned ids are exactly `1..N` in call order (so strictly increasing and
never reused), the persisted `nextId` is `N + 1`, and after the run
`nextId` is strictly greater than every id present in the store.  Since
the statement holds for every input list, it holds in particular for
every prefix, i.e. after every single operation. -/
theorem sequential_append_ids (inps : List AppendInput) (now : String) :
    (readRecords (appendSeq inps now DataFile.absent)).records.map (fun r => r.id)
        = List.range' 1 inps.length
    ∧ (readRecords (appendSeq inps now DataFile.absent)).nextId = inps.length + 1
    ∧ List.Chain' (· < ·)
        ((readRecords (appendSeq inps now DataFile.absent)).records.map (fun r => r.id))
    ∧ (readRecords (appendSeq inps now DataFile.absent)).records.all
        (fun r => r.id < (readRecords (appendSeq inps now DataFile.absent)).nextId) = true := by
  have base := appendSeq_ids inps now DataFile.absent 0 (by simp [readRecords]) (by simp [readRecords])
  have hmap : (readRecords (appendSeq inps now DataFile.absent)).records.map (fun r => r.id)
      = List.range' 1 inps.length := by simpa using base.1
  have hnext : (readRecords (appendSeq inps now DataFile.absent)).nextId = inps.length + 1 := by
    simpa using base.2
  refine ⟨hmap, hnext, ?_, ?_⟩
  · rw [hmap]; exact (List.pairwise_lt_range' 1 inps.length).chain'
  · rw [List.all_eq_true]
    intro r hr
    have hid : r.id ∈ List.range' 1 inps.length := by
      rw [← hmap]; exact List.mem_map_of_mem (fun r => r.id) hr
    have := List.mem_range'_1.mp hid
    simp only [hnext, decide_eq_true_eq]
    omega

lemma appendSeq_preserves_total_sum (now : String) :
    ∀ (inps : List AppendInput) (df : DataFile),
      (readRecords df).records.all
        (fun r => r.totalDistance = r.bike + r.treadmill + r.rowing) = true →
      (readRecords (appendSeq inps now df)).records.all
        (fun r => r.totalDistance = r.bike + r.treadmill + r.rowing) = true := by
  intro inps
  induction inps with
  | nil => intro df h; simpa [appendSeq] using h
  | cons inp rest ih =>
      intro df h
      have hseq : appendSeq (inp :: rest) now df
          = appendSeq rest now (appendStep inp now df) := by simp [appendSeq]
      rw [hseq]
      apply ih
      rw [readRecords_appendStep]
      rw [List.all_eq_true] at h ⊢
      intro r hr
      rcases List.mem_append.mp hr with hmem | hmem
      · exact h r hmem
      · have : r = mkRecord inp (readRecords df).nextId now := by simpa using hmem
        subst this
        simp [mkRecord]

/-- C8: the record built by a submission stores `totalDistance` equal to
the sum of the three measurements stored on the same record; an append
leaves every previously stored record byte-for-byte unchanged (it only
appends, so the total is never recomputed by a later operation); and
consequently every record in a store produced by any sequence of appends
from the empty store satisfies the sum invariant. -/
theorem totalDistance_sum_invariant (inp : AppendInput) (i : Nat) (now : String)
    (df : DataFile) (inps : List AppendInput) :
    (mkRecord inp i now).totalDistance
        = (mkRecord inp i now).bike + (mkRecord inp i now).treadmill + (mkRecord inp i now).rowing
    ∧ (readRecords (appendStep inp now df)).records
        = (readRecords df).records ++ [mkRecord inp (readRecords df).nextId now]
    ∧ (readRecords (appendSeq inps now DataFile.absent)).records.all
        (fun r => r.totalDistance = r.bike + r.treadmill + r.rowing) = true := by
  refine ⟨rfl, ?_, ?_⟩
  · rw [readRecords_appendStep]
  · exact appendSeq_preserves_total_sum now inps DataFile.absent (by simp [readRecords])

lemma filter_total_orderedInsert (a : Record) (t : ℚ) :
    ∀ l : List Record,
      (List.orderedInsert rTot a l).filter (fun x => decide (x.totalDistance = t))
        = if a.totalDistance = t
          then a :: l.filter (fun x => decide (x.totalDistance = t))
          else l.filter (fun x => decide (x.totalDistance = t)) := by
  intro l
  induction l with
  | nil =>
      by_cases h : a.totalDistance = t <;> simp [List.orderedInsert, List.filter, h]
  | cons b l ih =>
      rw [List.orderedInsert]
      by_cases hab : rTot a b
      · rw [if_pos hab]
        by_cases hat : a.totalDistance = t <;> simp [List.filter_cons, hat]
      · rw [if_neg hab]
        have hab' : ¬ (b.totalDistance ≤ a.totalDistance) := hab
        have hlt : a.totalDistance < b.totalDistance := not_le.mp hab'
        by_cases hbt : b.totalDistance = t
        · have hat : ¬ a.totalDistance = t := by
            intro hc
            rw [hc, ← hbt] at hlt
            exact lt_irrefl _ hlt
          simp [List.filter_cons, hbt, hat, ih]
        · by_cases hat : a.totalDistance = t <;> simp [List.filter_cons, hbt, hat, ih]

lemma filter_total_sort (t : ℚ) :
    ∀ l : List Record,
      (sortByTotalDesc l).filter (fun x => decide (x.totalDistance = t))
        = l.filter (fun x => decide (x.totalDistance = t)) := by
  intro l
  induction l with
  | nil => rfl
  | cons a l ih =>
      have ih' : (List.insertionSort rTot l).filter (fun x => decide (x.totalDistance = t))
          = l.filter (fun x => decide (x.totalDistance = t)) := ih
      rw [sortByTotalDesc, List.insertionSort, filter_total_orderedInsert]
      by_cases hat : a.totalDistance = t <;> simp [List.filter_cons, hat, ih']

/-- C9: the ranking for a gender.  The sorted partition is descending in
`totalDistance` (`rTot`-sorted) and, for every total value `t`, filtering
the sorted partition down to total `t` yields exactly the records of that
gender with total `t` in submission order — i.e. the sort is stable with
no secondary tie-break and the output is a permutation of the gender
partition.  Each public entry at 0-based position `i` is the masked view
of the `i`-th sorted record with rank `i + 1`: name, gender and the date
part of the timestamp retained, the three measurements and the total
replaced by the `'***'` placeholder.  The first-place view is the
unredacted top entry of the sorted partition, or `none` when the
partition is empty. -/
theorem rankings_spec (records : List Record) (g : String) :
    List.Sorted rTot (sortByTotalDesc (filterGender records g))
    ∧ (∀ t : ℚ,
        (sortByTotalDesc (filterGender records g)).filter (fun x => decide (x.totalDistance = t))
          = (filterGender records g).filter (fun x => decide (x.totalDistance = t)))
    ∧ (sortByTotalDesc (filterGender records g)).Perm (filterGender records g)
    ∧ (∀ e ∈ genderRankings records g,
        e.bike = "***" ∧ e.treadmill = "***" ∧ e.rowing = "***" ∧ e.totalDistance = "***")
    ∧ (∀ i (hi : i < (sortByTotalDesc (filterGender records g)).length)
          (hj : i < (genderRankings records g).length),
        (genderRankings records g).get ⟨i, hj⟩
          = maskEntry (i + 1) ((sortByTotalDesc (filterGender records g)).get ⟨i, hi⟩))
    ∧ (sortByTotalDesc (filterGender records g) = [] → firstPlace records g = none)
    ∧ (∀ r rest, sortByTotalDesc (filterGender records g) = r :: rest →
        firstPlace records g = some (exposeEntry r)) := by
  refine ⟨List.sorted_insertionSort rTot _, fun t => filter_total_sort t _,
    List.perm_insertionSort rTot _, ?_, ?_, ?_, ?_⟩
  · intro e he
    simp only [genderRankings, List.mem_map] at he
    obtain ⟨p, _, rfl⟩ := he
    exact ⟨rfl, rfl, rfl, rfl⟩
  · intro i hi hj
    simp [genderRankings, List.get_eq_getElem, List.getElem_map, List.getElem_enum]
  · intro h
    simp [firstPlace, h]
  · intro r rest h
    simp [firstPlace, h]

/-- Witness for C9 on the spec's example records (A male 10, B male 30,
C female 20): the male ranking is B at rank 1 then A at rank 2, both
masked; male first place exposes B's real measurements; an empty
partition has no first place. -/
theorem rankings_spec_witness :
    (genderRankings exRecords "male").get ⟨0, by decide⟩ = maskEntry 1 exB
    ∧ (genderRankings exRecords "male").get ⟨1, by decide⟩ = maskEntry 2 exA
    ∧ firstPlace exRecords "male" = some (exposeEntry exB)
    ∧ firstPlace exRecords "other" = none
    ∧ ((genderRankings exRecords "male").get ⟨0, by decide⟩).totalDistance = "***" := by
  have h := rankings_spec exRecords "male"
  refine ⟨?_, ?_, ?_, ?_, ?_⟩
  · exact (h.2.2.2.2.1 0 (by decide) (by decide)).trans (by decide)
  · exact (h.2.2.2.2.1 1 (by decide) (by decide)).trans (by decide)
  · exact h.2.2.2.2.2.2 exB [exA] (by decide)
  · exact (rankings_spec exRecords "other").2.2.2.2.2.1 (by decide)
  · exact (h.2.2.2.1 _ (by decide)).2.2.2

/-- C10 (amended): submission validation tests the five body fields for
JavaScript truthiness, not mere presence.  The number 0 and the empty
string are falsy, so any request in which one of `name`, `gender`,
`bike`, `treadmill`, `rowing` is falsy is answered with the
missing-fields rejection before any store access (the data file is
returned untouched).  However, a zero measurement is only unsubmittable
in those forms: multipart form fields arrive as strings, the string
`'0'` is truthy and `parseFloat('0')` is 0, so a genuine zero-distance
measurement can be submitted as `'0'` (see the counterexample theorem).
Gender is never checked against the `male`/`female` enumeration: any
truthy gender value passes validation, the submission is accepted, and
its response label is `'남성'` exactly when the value is the string
`'male'` and the female label `'여성'` for every other value. -/
theorem submit_validation_truthiness (req : SubmitRequest) (now : String)
    (df : DataFile) (p : String) :
    truthy (JSValue.num 0) = false
    ∧ truthy (JSValue.str "") = false
    ∧ ((truthy req.name = false ∨ truthy req.gender = false ∨ truthy req.bike = false
          ∨ truthy req.treadmill = false ∨ truthy req.rowing = false) →
        submitRecord req now df = (SubmitOutcome.missingFields, df))
    ∧ (truthy req.name = true → truthy req.gender = true → truthy req.bike = true →
        truthy req.treadmill = true → truthy req.rowing = true → req.file = some p →
        (submitRecord req now df).1.isOk = true
        ∧ (submitRecord req now df).1.label
            = some (if req.gender == JSValue.str "male" then "남성" else "여성"))
    ∧ truthy (JSValue.str "0") = true
    ∧ jsParseFloat (JSValue.str "0") = 0 := by
  refine ⟨rfl, rfl, ?_, ?_, by decide, by decide⟩
  · intro h
    have hcond : (!truthy req.name || !truthy req.gender || !truthy req.bike
        || !truthy req.treadmill || !truthy req.rowing) = true := by
      rcases h with h | h | h | h | h <;> simp [h]
    simp [submitRecord, hcond]
  · intro h1 h2 h3 h4 h5 hfile
    have hcond : (!truthy req.name || !truthy req.gender || !truthy req.bike
        || !truthy req.treadmill || !truthy req.rowing) = false := by
      simp [h1, h2, h3, h4, h5]
    simp [submitRecord, hcond, hfile, SubmitOutcome.isOk, SubmitOutcome.label]

/-- Witness for C10: a zero bike distance is rejected as missing fields
with the store untouched; the same request with a nonzero bike distance
and the non-enumerated gender `'other'` is accepted and labeled with the
female label `'여성'`. -/
theorem submit_validation_truthiness_witness :
    submitRecord ⟨JSValue.str "D", JSValue.str "other", JSValue.num 0, JSValue.num 1,
        JSValue.num 1, some "up/x.jpg"⟩ "t" DataFile.absent
      = (SubmitOutcome.missingFields, DataFile.absent)
    ∧ (submitRecord ⟨JSValue.str "D", JSValue.str "other", JSValue.num 2, JSValue.num 1,
        JSValue.num 1, some "up/x.jpg"⟩ "t" DataFile.absent).1.isOk = true
    ∧ (submitRecord ⟨JSValue.str "D", JSValue.str "other", JSValue.num 2, JSValue.num 1,
        JSValue.num 1, some "up/x.jpg"⟩ "t" DataFile.absent).1.label = some "여성" := by
  refine ⟨?_, ?_, ?_⟩
  · exact (submit_validation_truthiness ⟨JSValue.str "D", JSValue.str "other", JSValue.num 0,
      JSValue.num 1, JSValue.num 1, some "up/x.jpg"⟩ "t" DataFile.absent "up/x.jpg").2.2.1
      (Or.inr (Or.inr (Or.inl (by decide))))
  · exact ((submit_validation_truthiness ⟨JSValue.str "D", JSValue.str "other", JSValue.num 2,
      JSValue.num 1, JSValue.num 1, some "up/x.jpg"⟩ "t" DataFile.absent "up/x.jpg").2.2.2.1
      (by decide) (by decide) (by decide) (by decide) (by decide) rfl).1
  · exact (((submit_validation_truthiness ⟨JSValue.str "D", JSValue.str "other", JSValue.num 2,
      JSValue.num 1, JSValue.num 1, some "up/x.jpg"⟩ "t" DataFile.absent "up/x.jpg").2.2.2.1
      (by decide) (by decide) (by decide) (by decide) (by decide) rfl).2).trans (by decide)

/-- C10 counterexample: a genuine zero-distance measurement CAN be
submitted, refuting the claim's conclusion.  Multipart form fields reach
the handler as strings; the string `'0'` is truthy, so a request with
`bike = '0'` passes the `!bike` check, is accepted, and the store then
holds a record whose `bike` measurement is the number 0
(`parseFloat('0')`). -/
theorem zero_string_distance_accepted :
    truthy (JSValue.str "0") = true
    ∧ (submitRecord ⟨JSValue.str "D", JSValue.str "male", JSValue.str "0", JSValue.str "5",
        JSValue.str "5", some "up/x.jpg"⟩ "t" DataFile.absent).1.isOk = true
    ∧ (readRecords (submitRecord ⟨JSValue.str "D", JSValue.str "male", JSValue.str "0",
        JSValue.str "5", JSValue.str "5", some "up/x.jpg"⟩ "t" DataFile.absent).2).records.map
        (fun r => (r.name, r.bike)) = [("D", 0)] := by
  refine ⟨rfl, ?_, ?_⟩ <;> decide
